import Mathlib

/-!
# Verification of the dekapu-dashboard log-parser core

Shallow embedding of the Python sources under `log-parser/app` and proofs of
the specification claims about them.

Modelling conventions:
* Python `float` arithmetic is modelled over `ℚ`; `math.exp` is abstracted as
  an arbitrary function parameter `expf : ℚ → ℚ`, so every theorem holds for
  every choice of `expf`, in particular for the real exponential.
* `datetime` values are modelled as rational numbers of seconds, so
  `(b - a).total_seconds()` becomes plain subtraction, and `datetime.now()`
  becomes an explicit `now` parameter.
* Python `dict` objects are modelled as association lists where assignment
  prepends (lookup returns the most recent binding).
* Library calls whose internals are outside this repository (regular
  expression matching, `strptime`, `json.loads`, URL query parsing,
  `sha256`) are abstracted as oracle function parameters; theorems quantify
  over them.
-/

namespace Dekapu

/-- Python `int(x)` applied to a float: truncation toward zero. -/
def truncInt (q : ℚ) : ℤ :=
  if 0 ≤ q then ⌊q⌋ else ⌈q⌉

/-- Lookup in a Python dict modelled as an association list
(`d.get(k)` / `d[k]`). -/
def assocGet {α : Type} : List (String × α) → String → Option α
  | [], _ => none
  | (k, v) :: rest, key => if k = key then some v else assocGet rest key

/-- Assignment `d[k] = v` in a Python dict modelled as an association list:
the new binding shadows any previous one. -/
def assocSet {α : Type} (l : List (String × α)) (key : String) (v : α) :
    List (String × α) :=
  (key, v) :: l

/-- Python substring test `sub in line`. -/
def containsB (line sub : String) : Bool :=
  decide (sub.toList <:+: line.toList)

/-- Python `s.startswith(pre)`. -/
def startsWithB (s pre : String) : Bool :=
  decide (pre.toList <+: s.toList)

/-! ## `app/analysis/medal_rate_ema.py` — class `MedalRateEMA`

The Python class keeps `last_timestamp : Optional[datetime]` and
`last_total : Optional[int]`; the two fields are always assigned together
(both `None` after `__init__`/`reset`, both set by every store), so the
embedding keeps them as a single `Option` of a pair.  The `total` argument
and the stored `last_total` are modelled over `ℚ` because the type
annotation `int` is not enforced by Python; the value reaching `update`
from the parser may be any JSON number. -/

structure MedalRateEMA where
  decay_const : ℚ
  /-- The `last_timestamp` and `last_total` attributes, always populated
  together. -/
  last : Option (ℚ × ℚ)
  ema_rate : ℚ
  offset_total : ℤ
deriving DecidableEq

namespace MedalRateEMA

/-- The constructor `MedalRateEMA.__init__(decay_const=20.0)`. -/
def init (decay_const : ℚ) : MedalRateEMA :=
  { decay_const := decay_const
    last := none
    ema_rate := 0
    offset_total := 0 }

/-- The method `MedalRateEMA.add_offset`. -/
def add_offset (st : MedalRateEMA) (value : ℤ) : MedalRateEMA :=
  { st with offset_total := st.offset_total + value }

/-- The method `MedalRateEMA.reset`. -/
def reset (st : MedalRateEMA) : MedalRateEMA :=
  { decay_const := st.decay_const
    last := none
    ema_rate := 0
    offset_total := 0 }

/-- The method `MedalRateEMA.update(total, timestamp)`, returning the new
state and the Python return value (`None` or `int(...)`).  `expf` stands for
`math.exp`. -/
def update (expf : ℚ → ℚ) (st : MedalRateEMA) (total : ℚ) (timestamp : ℚ) :
    MedalRateEMA × Option ℤ :=
  let adjusted_total : ℚ := total - (st.offset_total : ℚ)
  match st.last with
  | none =>
      ({ st with last := some (timestamp, adjusted_total) }, none)
  | some (last_timestamp, last_total) =>
      let dt : ℚ := timestamp - last_timestamp
      if dt ≤ 0 then
        (st, some (truncInt st.ema_rate))
      else
        let delta : ℚ := adjusted_total - last_total
        let rate_instant : ℚ := (delta / dt) * 60
        let alpha : ℚ := 1 - expf (-dt / st.decay_const)
        let ema2 : ℚ := (1 - alpha) * st.ema_rate + alpha * rate_instant
        ({ st with ema_rate := ema2, last := some (timestamp, adjusted_total) },
          some (truncInt ema2))

/-- The update algorithm exactly as the specification words it (claim C1):
adjusted total, first-call store,  `dt <= 0` guard, EMA update with
`alpha = 1 - exp(-dt / 20)`, truncation toward zero.  The decay constant is
the fixed reference value 20 from the spec text. -/
def updateSpec (expf : ℚ → ℚ) (st : MedalRateEMA) (total : ℚ)
    (at_ : ℚ) : MedalRateEMA × Option ℤ :=
  let adjusted_total : ℚ := total - (st.offset_total : ℚ)
  match st.last with
  | none =>
      ({ st with last := some (at_, adjusted_total) }, none)
  | some (last_timestamp, last_adjusted_total) =>
      let dt : ℚ := at_ - last_timestamp
      if dt ≤ 0 then
        (st, some (truncInt st.ema_rate))
      else
        let alpha : ℚ := 1 - expf (-dt / 20)
        let ema2 : ℚ :=
          (1 - alpha) * st.ema_rate +
            alpha * (((adjusted_total - last_adjusted_total) / dt) * 60)
        ({ st with ema_rate := ema2, last := some (at_, adjusted_total) },
          some (truncInt ema2))

/-- Feed a list of `(total, timestamp)` calls to the estimator, collecting
the list of returned values. -/
def runCalls (expf : ℚ → ℚ) (st : MedalRateEMA) :
    List (ℚ × ℚ) → MedalRateEMA × List (Option ℤ)
  | [] => (st, [])
  | (t, ts) :: rest =>
      let out := update expf st t ts
      let tail := runCalls expf out.1 rest
      (tail.1, out.2 :: tail.2)

/-- Number of "successful updates with strictly increasing timestamps" in a
call sequence, in the sense of the specification: the call that stores the
first sample counts as the first successful update, and every later call
whose timestamp strictly exceeds the stored one (the `dt > 0` branch)
counts as a further successful update. -/
def succUpdates (expf : ℚ → ℚ) (st : MedalRateEMA) :
    List (ℚ × ℚ) → ℕ
  | [] => 0
  | (t, ts) :: rest =>
      let here : ℕ :=
        match st.last with
        | none => 1
        | some (last_timestamp, _) => if ts - last_timestamp ≤ 0 then 0 else 1
      here + succUpdates expf (update expf st t ts).1 rest

end MedalRateEMA

/-! ## `app/model/mmp_savedata.py`

Only the fields the watcher and the autosave manager actually read are kept
explicit (`credit_all`, `lastsave`, `l_achieve`); the dozens of remaining
optional scalar counters, already flattened as `model_dump_for_influx`
would flatten them, are abstracted as the association list `rest`.
`credit_all` is kept as an `Option` to mirror the `is None` guard in
`AutoSaveManager.update` (the pydantic schema declares it required, and the
manager still guards). -/

structure MmpSaveData where
  credit_all : Option ℤ
  lastsave : ℚ
  l_achieve : Option (List ℤ)
  /-- The remaining flattened scalar fields of `model_dump_for_influx`. -/
  rest : List (String × ℤ)
deriving DecidableEq

/-- The record type `MmpSaveRecord`. -/
structure MmpSaveRecord where
  data : MmpSaveData
  user_id : String
  sig : String
  raw_url : String
deriving DecidableEq

/-- `MmpSaveData.model_dump_for_influx`: the flattened scalar fields of
the validated payload; `credit_all` appears whenever present
(`exclude_none`), the other flattened scalars are the abstract `rest`. -/
def model_dump_for_influx (d : MmpSaveData) : List (String × ℤ) :=
  (match d.credit_all with
   | some c => [("credit_all", c)]
   | none => []) ++ d.rest

/-! ## `app/utils/cloudsave_state_store.py` -/

/-- The pydantic model `CloudSaveState`. -/
structure CloudSaveState where
  credit_all : ℤ
  last_attempt_at : ℚ
  data_hash : String
deriving DecidableEq

/-- The in-memory map of `CloudSaveStateStore` (`self._data`). -/
abbrev CloudStore := List (String × CloudSaveState)

/-! ## `app/service/autosave_manager.py` — class `AutoSaveManager`

`AutoSaveManager.update` is modelled as a pure function from the shared
cloud-save store, the record, the wall clock and the flag to: the new store
content, whether a remote call was dispatched
(`asyncio.create_task(self._do_request(url, user_id))`), and the Python
return value of `update` itself.  Every `return` statement in the source is
a bare `return` and the function also falls off its end, so each exit is
modelled as `none : Option Unit`.  `calcHash` abstracts
`AutoSaveManager._calc_data_hash` (sha256 of the canonical JSON dump);
`save_interval` is `self._save_interval` in seconds. -/

namespace AutoSaveManager

/-- Result of one `AutoSaveManager.update` call: new store, whether the
remote request task was dispatched, and the (always bare) return value. -/
structure UpdateResult where
  store : CloudStore
  dispatched : Bool
  ret : Option Unit
deriving DecidableEq

/-- The method `AutoSaveManager.update(record, ignore_rate_limit=False)`. -/
def update (calcHash : MmpSaveData → String) (save_interval : ℚ)
    (store : CloudStore) (record : MmpSaveRecord) (now : ℚ)
    (ignore_rate_limit : Bool) : UpdateResult :=
  match record.data.credit_all with
  | none => { store := store, dispatched := false, ret := none }
  | some credit_all =>
    let user_id := record.user_id
    match assocGet store user_id with
    | some state =>
        if ignore_rate_limit = false ∧
            now - state.last_attempt_at < save_interval then
          { store := store, dispatched := false, ret := none }
        else if credit_all < state.credit_all then
          { store := store, dispatched := false, ret := none }
        else
          let data_hash := calcHash record.data
          if data_hash = state.data_hash then
            { store := store, dispatched := false, ret := none }
          else
            { store := assocSet store user_id
                { credit_all := credit_all, last_attempt_at := now,
                  data_hash := data_hash }
              dispatched := true, ret := none }
    | none =>
        let data_hash := calcHash record.data
        { store := assocSet store user_id
            { credit_all := credit_all, last_attempt_at := now,
              data_hash := data_hash }
          dispatched := true, ret := none }

/-- A sequence of `update` calls threaded through the shared store; each
call carries its record, its wall-clock time and its
`ignore_rate_limit` flag. -/
def runUpdates (calcHash : MmpSaveData → String) (save_interval : ℚ)
    (store : CloudStore) : List (MmpSaveRecord × ℚ × Bool) → CloudStore
  | [] => store
  | (record, now, irl) :: rest =>
      runUpdates calcHash save_interval
        (update calcHash save_interval store record now irl).store rest

end AutoSaveManager

/-! ## `app/monitoring/log_watcher.py` — class `VRChatLogWatcher` -/

/-- Python truthiness of an `Optional` update return value
(`if await self.autosave_mgr.update(...)`): `None` is falsy. -/
def pyTruthy (v : Option Unit) : Bool :=
  v.isSome

/-- Python truthiness of an `Optional[int]`
(`if credit_all_delta_1m:` / `if value := result.stockover_value:`):
`None` and `0` are falsy. -/
def pyTruthyInt (v : Option ℤ) : Bool :=
  match v with
  | none => false
  | some d => decide (d ≠ 0)

/-- The field list of the `influxdb_client.Point` assembled by
`VRChatLogWatcher._push_influxdb` (tags and timestamp are carried
separately by the point and are irrelevant to the claims).  Order follows
the source: `l_achieve_count` first, then the conditional
`credit_all_delta_1m`, then the `model_dump_for_influx` items.
`len(record.data.l_achieve or [])` maps `None` (and only a falsy value) to
the empty list. -/
def pushInfluxFields (record : MmpSaveRecord)
    (credit_all_delta_1m : Option ℤ) : List (String × ℤ) :=
  ("l_achieve_count", ((record.data.l_achieve.getD []).length : ℤ))
    :: ((if pyTruthyInt credit_all_delta_1m then
          [("credit_all_delta_1m", credit_all_delta_1m.getD 0)]
        else []) ++ model_dump_for_influx record.data)

/-- The per-watcher mutable session state of `VRChatLogWatcher` that
`_handle_event` touches. -/
structure WatcherSt where
  medal : MedalRateEMA
  last_record : Option MmpSaveRecord
  wait_leave_resume_url : Bool
  record_is_dirty : Bool
  enable_autosave : Bool
deriving DecidableEq

/-- The property `VRChatLogWatcher.has_unsaved_record`:
`bool(self.last_record and self.record_is_dirty)`. -/
def hasUnsavedRecord (st : WatcherSt) : Bool :=
  st.last_record.isSome && st.record_is_dirty

/-- The classified events consumed by `VRChatLogWatcher._handle_event`. -/
inductive WEvent where
  | stockover (value : Option ℤ)
  | cloudLoad
  | sessionReset
  | worldJoin
  | worldLeave
  | appQuit
  | savedataUpdate (record : Option MmpSaveRecord)
deriving DecidableEq

/-- Externally visible side effects of one `_handle_event` call. -/
inductive WatcherAction where
  | pushInflux (fields : List (String × ℤ))
  | cloudSaveDispatch (url : String)
deriving DecidableEq

/-- Python exceptions relevant to the embedded code.  Every constructor
models an exception class deriving from `Exception`. -/
inductive PyExc where
  | unicodeDecodeError
  | jsonDecodeError
  | typeError
  | keyError
  | valueError
  | otherError
deriving DecidableEq

/-- The method `VRChatLogWatcher._handle_event`, threading the watcher
session state and the shared cloud-save store and collecting dispatched
side effects.  A `savedata` record whose `credit_all` is `None` would make
`MedalRateEMA.update` evaluate `None - int`, raising `TypeError` past the
handler, hence the `Except` result. -/
def handleEvent (expf : ℚ → ℚ) (calcHash : MmpSaveData → String)
    (save_interval : ℚ) (st : WatcherSt) (cloud : CloudStore) (now : ℚ) :
    WEvent → Except PyExc (WatcherSt × CloudStore × List WatcherAction)
  | .stockover value =>
      -- `if value := result.stockover_value:` — walrus truthiness
      if pyTruthyInt value then
        .ok ({ st with medal := st.medal.add_offset (value.getD 0) }, cloud, [])
      else
        .ok (st, cloud, [])
  | .cloudLoad => .ok ({ st with medal := st.medal.reset }, cloud, [])
  | .sessionReset => .ok ({ st with medal := st.medal.reset }, cloud, [])
  | .worldJoin => .ok ({ st with medal := st.medal.reset }, cloud, [])
  | .worldLeave => .ok ({ st with wait_leave_resume_url := true }, cloud, [])
  | .appQuit =>
      if st.enable_autosave && hasUnsavedRecord st then
        match st.last_record with
        | some record =>
            let r := AutoSaveManager.update calcHash save_interval cloud
              record now true
            let st2 := if pyTruthy r.ret then
                { st with record_is_dirty := false }
              else st
            .ok (st2, r.store,
              if r.dispatched then [.cloudSaveDispatch record.raw_url] else [])
        | none =>
            -- dead: `hasUnsavedRecord st` requires `last_record.isSome`
            .ok (st, cloud, [])
      else
        .ok (st, cloud, [])
  | .savedataUpdate orecord =>
      match orecord with
      | none => .ok (st, cloud, [])
      | some record =>
        let st1 := { st with last_record := some record }
        match record.data.credit_all with
        | none => .error PyExc.typeError
        | some c =>
          let upd := st1.medal.update expf (c : ℚ) record.data.lastsave
          let delta := upd.2
          let st2 := { st1 with medal := upd.1 }
          let acts0 : List WatcherAction :=
            [.pushInflux (pushInfluxFields record delta)]
          if st2.enable_autosave = false then
            .ok (st2, cloud, acts0)
          else if st2.wait_leave_resume_url then
            let st3 := { st2 with wait_leave_resume_url := false }
            let r := AutoSaveManager.update calcHash save_interval cloud
              record now true
            let st4 := if pyTruthy r.ret then
                { st3 with record_is_dirty := false }
              else st3
            .ok (st4, r.store, acts0 ++
              (if r.dispatched then [.cloudSaveDispatch record.raw_url] else []))
          else
            let r := AutoSaveManager.update calcHash save_interval cloud
              record now false
            let st3 := if pyTruthy r.ret then
                { st2 with record_is_dirty := false }
              else
                { st2 with record_is_dirty := true }
            .ok (st3, r.store, acts0 ++
              (if r.dispatched then [.cloudSaveDispatch record.raw_url] else []))

/-! ### The read loop of `VRChatLogWatcher.run`

Each iteration of the loop reads one line (already `.strip()`-ed) together
with `file.tell()`, the byte position just past that line.  An empty read
takes the sleep/inactivity branch; a non-empty line first updates the
offset store (`await self.offset_store.set(self.fname, file.tell())`) and
only then is classified and dispatched (`await self._process_line(line)`).
The trace records both steps. -/

/-- Observable steps of the read loop. -/
inductive WatchAction where
  /-- `offset_store.set(fname, pos)` completed. -/
  | offsetSet (fname : String) (pos : ℕ)
  /-- `_process_line(line)` invoked; `stored` is the offset the store holds
  for `fname` at that moment, `pos` the position just past the line. -/
  | lineDispatched (line : String) (pos : ℕ) (stored : Option ℕ)
deriving DecidableEq

/-- One iteration of the `while True` body of `VRChatLogWatcher.run` for a
read result `(line, tell)`. -/
def readIter (fname : String) (offsets : List (String × ℕ))
    (inp : String × ℕ) : List (String × ℕ) × List WatchAction :=
  if inp.1 = "" then
    -- `if not line:` — inactivity check and sleep; no offset write,
    -- no line processing
    (offsets, [])
  else
    let offsets2 := assocSet offsets fname inp.2
    (offsets2,
      [.offsetSet fname inp.2,
       .lineDispatched inp.1 inp.2 (assocGet offsets2 fname)])

/-- The read loop over a list of successive read results. -/
def runLoop (fname : String) (offsets : List (String × ℕ)) :
    List (String × ℕ) → List (String × ℕ) × List WatchAction
  | [] => (offsets, [])
  | inp :: rest =>
      let step := readIter fname offsets inp
      let tail := runLoop fname step.1 rest
      (tail.1, step.2 ++ tail.2)

/-- Checkpoint-before-dispatch: every `lineDispatched` action in the trace
carries the stored offset equal to its own end position, and is preceded by
an `offsetSet` persisting exactly that position. -/
def ProcessedAfterCheckpoint (fname : String)
    (trace : List WatchAction) : Prop :=
  ∀ pre line pos stored suf,
    trace = pre ++ WatchAction.lineDispatched line pos stored :: suf →
    stored = some pos ∧ WatchAction.offsetSet fname pos ∈ pre

/-! ## `app/analysis/log_parser.py` — class `MppLogParser` -/

/-- JSON values, as returned by `json.loads`. -/
inductive JsonVal where
  | null
  | bool (b : Bool)
  | int (n : ℤ)
  | float (q : ℚ)
  | str (s : String)
  | arr (items : List JsonVal)
  | obj (fields : List (String × JsonVal))

/-- Scalar values accepted by `Point.field`. -/
inductive FieldVal where
  | int (n : ℤ)
  | float (q : ℚ)
  | str (s : String)
deriving DecidableEq

/-- The relevant pieces of an `influxdb_client.Point`. -/
structure PointM where
  tag_user : String
  time : ℚ
  fields : List (String × FieldVal)
deriving DecidableEq

/-- The mutable parser state of `MppLogParser`. -/
structure ParserSt where
  medal : MedalRateEMA
  last_timestamp : Option ℚ
  last_stockover : ℤ
deriving DecidableEq

/-- Oracles abstracting the library functions `MppLogParser` calls:
regular-expression matching, timestamp parsing and timezone conversion,
`int(...)`, URL query extraction, `unquote` and `json.loads`.  Failure
values model the exception the library call raises. -/
structure ParserOracle where
  /-- `TIMESTAMP_RE.match(line)`, returning `m.group(1)` on a match. -/
  matchTimestamp : String → Option String
  /-- `datetime.strptime(..).replace(tzinfo=..).astimezone(UTC)`. -/
  strptimeToUtc : String → Except PyExc ℚ
  /-- `re.search(stockover pattern, line)`, returning `m.group(1)`. -/
  matchStockover : String → Option String
  /-- Python `int(s)`. -/
  parseInt : String → Except PyExc ℤ
  /-- `parse_qs(urlparse(line).query).get(param, [default])[0]` without the
  default: `none` when the parameter is absent. -/
  getQueryParam : String → String → Option String
  /-- `urllib.parse.unquote`. -/
  unquote : String → String
  /-- `json.loads`. -/
  jsonLoads : String → Except PyExc JsonVal
  /-- `math.exp`, forwarded to the parser's own `MedalRateEMA`. -/
  expf : ℚ → ℚ

namespace MppLogParser

/-- `TIMESTAMP_PREFIX` in the source (renamed here). -/
def TIMESTAMP_MARK : String := "[DSM SaveURL] Generated URL"

/-- `CLOUD_LOAD_MSG`. -/
def CLOUD_LOAD_MSG : String := "[LoadFromParsedData]"

/-- `SESSION_RESET_MSG`. -/
def SESSION_RESET_MSG : String := "[ResetCurrentSession]"

/-- `JP_STOCK_OVER_MSG`. -/
def JP_STOCK_OVER_MSG : String := "[JP] ストック溢れです"

/-- `WORLD_JOIN_MSG`. -/
def WORLD_JOIN_MSG : String :=
  "[Behaviour] Joining wrld_1af53798-92a3-4c3f-99ae-a7c42ec6084d"

/-- `SAVEDATA_URL_PREFIX` in the source (renamed here). -/
def SAVEDATA_URL_MARK : String := "https://push.trap.games/api/v3/data"

/-- `MppLogParser.fix_overflow(value, 32)`: negative 32-bit counters are
reinterpreted as unsigned (`value & ((1 << 32) - 1)` on a negative Python
int equals `value mod 2^32`). -/
def fix_overflow (value : ℤ) : ℤ :=
  if value < 0 then value % (2 ^ 32) else value

/-- `MppLogParser._parse_timestamp_line`: the inner `try` catches every
exception, so the helper never raises; on success it stores the UTC
timestamp. -/
def parseTimestampLine (O : ParserOracle) (st : ParserSt) (line : String) :
    ParserSt :=
  match O.matchTimestamp line with
  | none => st
  | some g =>
      match O.strptimeToUtc g with
      | .ok ts => { st with last_timestamp := some ts }
      | .error _ => st

/-- `num_str.replace(",", "")`. -/
def removeCommas (s : String) : String :=
  String.mk (s.toList.filter (fun c => c ≠ ','))

/-- `MppLogParser._parse_jp_stockover_line`: inner catch-all, accumulates
the parsed amount into `last_stockover`. -/
def parseJpStockoverLine (O : ParserOracle) (st : ParserSt)
    (line : String) : ParserSt :=
  match O.matchStockover line with
  | none => st
  | some num_str =>
      match O.parseInt (removeCommas num_str) with
      | .ok stock => { st with last_stockover := st.last_stockover + stock }
      | .error _ => st

/-- `len(x)` for a JSON value: arrays, strings and dicts have a length,
anything else raises `TypeError`. -/
def jsonLen : JsonVal → Except PyExc ℤ
  | .arr items => .ok items.length
  | .str s => .ok s.length
  | .obj fields => .ok fields.length
  | _ => .error PyExc.typeError

/-- The `for k, v in data.items()` field loop of the save-data branch.
Python `bool` is a subclass of `int`, so a JSON boolean takes the
`isinstance(v, int)` branch (as 0/1) and is passed through
`fix_overflow`. -/
def buildDataFields : List (String × JsonVal) → List (String × FieldVal)
  | [] => []
  | (k, v) :: rest =>
      (match v with
       | .int n => [(k, .int (fix_overflow n))]
       | .bool b => [(k, .int (fix_overflow (if b then 1 else 0)))]
       | .float q => [(k, .float q)]
       | .str s => [(k, .str s)]
       | .obj sub =>
           if startsWithB k "dc_" then
             sub.filterMap (fun kv =>
               match kv.2 with
               | .int n => some (k ++ "_" ++ kv.1, .int (fix_overflow n))
               | .bool b =>
                   some (k ++ "_" ++ kv.1,
                     .int (fix_overflow (if b then 1 else 0)))
               | .float q => some (k ++ "_" ++ kv.1, .float q)
               | .str s => some (k ++ "_" ++ kv.1, .str s)
               | _ => none)
           else []
       | .arr items =>
           if startsWithB k "l_totems_set" then
             (items.enumFrom 1).filterMap (fun iv =>
               match iv.2 with
               | .int n => some (k ++ "_" ++ toString iv.1, .int n)
               | .bool b =>
                   some (k ++ "_" ++ toString iv.1,
                     .int (if b then 1 else 0))
               | _ => none)
           else []
       | .null => []) ++ buildDataFields rest

/-- The save-data branch of `MppLogParser.parse_line` (everything under
`if self.SAVEDATA_URL_PREFIX in line:`).  `.ok (none, st)` models
`return None` from inside the branch; `.error e` models an exception
escaping toward the outer handlers.  No parser state is mutated before any
possible raise in this branch. -/
def savedataBranch (O : ParserOracle) (st : ParserSt) (now : ℚ)
    (line : String) : Except PyExc (Option PointM × ParserSt) := do
  let raw_data := O.unquote ((O.getQueryParam line "data").getD "\x7b\x7d")
  match O.jsonLoads raw_data with
  | .error e =>
      if e = PyExc.jsonDecodeError then
        -- `except json.JSONDecodeError: ... return None`
        return (none, st)
      else
        .error e
  | .ok data =>
    match data with
    | .obj fields =>
        let user_id := (O.getQueryParam line "user_id").getD ""
        let credit_all := assocGet fields "credit_all"
        let l_achieve_count ←
          match assocGet fields "l_achieve" with
          | none => pure (0 : ℤ)
          | some v => jsonLen v
        let timestamp := st.last_timestamp.getD now
        let p : PointM :=
          { tag_user := user_id, time := timestamp
            fields := ("l_achieve_count", .int l_achieve_count)
              :: buildDataFields fields }
        match credit_all with
        | none => return (some p, st)
        | some .null => return (some p, st)
        | some (.int n) => do
            let adjusted_credit : ℚ := (n : ℚ) - (st.last_stockover : ℚ)
            let upd := st.medal.update O.expf adjusted_credit timestamp
            let st2 := { st with medal := upd.1 }
            match upd.2 with
            | some delta =>
                return (some { p with fields :=
                  p.fields ++ [("credit_all_delta_1m", .int delta)] }, st2)
            | none => return (some p, st2)
        | some (.bool b) => do
            let adjusted_credit : ℚ :=
              ((if b then 1 else 0) : ℚ) - (st.last_stockover : ℚ)
            let upd := st.medal.update O.expf adjusted_credit timestamp
            let st2 := { st with medal := upd.1 }
            match upd.2 with
            | some delta =>
                return (some { p with fields :=
                  p.fields ++ [("credit_all_delta_1m", .int delta)] }, st2)
            | none => return (some p, st2)
        | some (.float q) => do
            let adjusted_credit : ℚ := q - (st.last_stockover : ℚ)
            let upd := st.medal.update O.expf adjusted_credit timestamp
            let st2 := { st with medal := upd.1 }
            match upd.2 with
            | some delta =>
                return (some { p with fields :=
                  p.fields ++ [("credit_all_delta_1m", .int delta)] }, st2)
            | none => return (some p, st2)
        | some (.str _) =>
            -- `credit_all - self.last_stockover` on a str raises TypeError
            .error PyExc.typeError
        | some (.arr _) => .error PyExc.typeError
        | some (.obj _) => .error PyExc.typeError
    | _ =>
        -- `data.get(...)` on a non-dict raises AttributeError
        .error PyExc.otherError

/-- The chain of outer `except` clauses of `MppLogParser.parse_line`:
`UnicodeDecodeError`, then `(TypeError, KeyError)`, then `Exception`.
Returns `some result` when one of the clauses catches the exception,
`none` when it would escape.  Every modelled exception derives from
`Exception`, so the final clause catches everything. -/
def applyHandlers (e : PyExc) : Option (Option PointM) :=
  if e = PyExc.unicodeDecodeError then some none
  else if e = PyExc.typeError ∨ e = PyExc.keyError then some none
  else some none

/-- The save-data branch combined with the outer `except` chain: a normal
result is returned as is; an escaping exception is offered to the handlers
(which return `None`) and would propagate only if none caught it.  The
parser state mutated before the branch survives either way, as in
Python. -/
def savedataReturn (O : ParserOracle) (st1 : ParserSt) (now : ℚ)
    (line : String) : ParserSt × Except PyExc (Option PointM) :=
  match savedataBranch O st1 now line with
  | .ok (result, st2) => (st2, .ok result)
  | .error e =>
      (st1, match applyHandlers e with
            | some result => .ok result
            | none => .error e)

/-- `MppLogParser.parse_line(line)`.  The result pairs the final parser
state with either `Except.ok result` (the value `parse_line` returns) or
`Except.error e` (an exception escaping past its boundary — shown below to
be impossible). -/
def parse_line (O : ParserOracle) (st : ParserSt) (now : ℚ)
    (line : String) : ParserSt × Except PyExc (Option PointM) :=
  if containsB line TIMESTAMP_MARK then
    (parseTimestampLine O st line, .ok none)
  else if containsB line CLOUD_LOAD_MSG then
    ({ st with medal := st.medal.reset }, .ok none)
  else if containsB line SESSION_RESET_MSG then
    ({ st with medal := st.medal.reset }, .ok none)
  else
    -- the stock-overflow branch does not return; a matching line falls
    -- through to the later checks
    let st1 := if containsB line JP_STOCK_OVER_MSG then
        parseJpStockoverLine O st line
      else st
    if containsB line WORLD_JOIN_MSG then
      ({ st1 with medal := st1.medal.reset }, .ok none)
    else if containsB line SAVEDATA_URL_MARK then
      savedataReturn O st1 now line
    else
      (st1, .ok none)

end MppLogParser

/-! ## Persistence of the two durable stores

`FileOffsetStore._save` and `CloudSaveStateStore._save` are modelled as the
sequence of file-system operations they perform; the serialized JSON
document is an opaque string parameter. -/

/-- File-system operations performed by a save. -/
inductive FsWrite where
  /-- `open(path, "w")` + `json.dump`: write `content` to `path` in
  place. -/
  | writeFile (path : String) (content : String)
  /-- `Path(src).replace(target)`: atomic rename. -/
  | replaceFile (src target : String)
deriving DecidableEq

/-- Strip the final extension (including its dot) from the reversed char
list of a path, stopping at the component separator; `none` when the last
component has no extension (also for a bare leading-dot name, as in
`pathlib`). -/
def dropExtRev : List Char → Option (List Char)
  | [] => none
  | c :: cs =>
      if c = '/' then none
      else if c = '.' then
        if cs.headD '/' = '/' then none else some cs
      else dropExtRev cs

/-- `pathlib.PurePath.with_suffix`: replace the extension of the last
component (or append when there is none). -/
def withSuffix (p suffix : String) : String :=
  match dropExtRev p.toList.reverse with
  | some kept => String.mk kept.reverse ++ suffix
  | none => p ++ suffix

/-- The file-system operations of `FileOffsetStore._save`: write the JSON
document to `self._path.with_suffix(".tmp")`, then atomically rename it
over the target (`tmp.replace(self._path)`). -/
def FileOffsetStore.saveActions (path : String) (doc : String) :
    List FsWrite :=
  let tmp := withSuffix path ".tmp"
  [.writeFile tmp doc, .replaceFile tmp path]

/-- The file-system operations of `CloudSaveStateStore._save`: a single
direct `open(self._path, "w")` + `json.dump` to the target path. -/
def CloudSaveStateStore.saveActions (path : String) (doc : String) :
    List FsWrite :=
  [.writeFile path doc]

/-- A save follows the temporary-file-then-atomic-rename protocol for
`target`: it writes the document to some other path and then renames that
path over the target. -/
def atomicReplaceProtocol (target : String) (acts : List FsWrite) : Prop :=
  ∃ tmp doc, tmp ≠ target ∧
    acts = [FsWrite.writeFile tmp doc, FsWrite.replaceFile tmp target]

/-- `LogWatcherManager.OFFSET_STORE_FILE`. -/
def OFFSET_STORE_FILE : String := "offsets.json"

/-- `LogWatcherManager.CLOUD_STATE_FILE`. -/
def CLOUD_STATE_FILE : String := "cloudsave.json"

/-- `main.py` passes `data_dir=Path("data")`. -/
def dataDir : String := "data"

/-- The offset checkpoint store's target path. -/
def offsetStorePath : String := dataDir ++ "/" ++ OFFSET_STORE_FILE

/-- The remote-save state store's target path. -/
def cloudStatePath : String := dataDir ++ "/" ++ CLOUD_STATE_FILE

/-! ## Helper lemmas -/

theorem truncInt_zero : truncInt 0 = 0 := by
  simp [truncInt]

theorem assocGet_set_self {α : Type} (l : List (String × α)) (k : String)
    (v : α) : assocGet (assocSet l k v) k = some v := by
  simp [assocGet, assocSet]

theorem assocGet_set_ne {α : Type} (l : List (String × α)) (k k2 : String)
    (v : α) (hne : k ≠ k2) :
    assocGet (assocSet l k v) k2 = assocGet l k2 := by
  simp [assocGet, assocSet, hne]

namespace AutoSaveManager

/-- Every exit of `AutoSaveManager.update` is a bare `return`. -/
theorem update_ret_none (calcHash : MmpSaveData → String) (itv : ℚ)
    (store : CloudStore) (record : MmpSaveRecord) (now : ℚ) (irl : Bool) :
    (update calcHash itv store record now irl).ret = none := by
  cases hc : record.data.credit_all with
  | none => simp [update, hc]
  | some c =>
      cases hget : assocGet store record.user_id with
      | none => simp [update, hc, hget]
      | some state =>
          simp only [update, hc, hget]
          split_ifs <;> rfl

/-- One `update` call never decreases the stored `credit_all` of any
user. -/
theorem update_mono_step (calcHash : MmpSaveData → String) (itv : ℚ)
    (store : CloudStore) (record : MmpSaveRecord) (now : ℚ) (irl : Bool)
    (uid : String) (s : CloudSaveState)
    (h : assocGet store uid = some s) :
    ∃ s2, assocGet (update calcHash itv store record now irl).store uid
        = some s2 ∧ s.credit_all ≤ s2.credit_all := by
  cases hc : record.data.credit_all with
  | none =>
      refine ⟨s, ?_, le_refl _⟩
      simp [update, hc, h]
  | some c =>
      cases hget : assocGet store record.user_id with
      | none =>
          by_cases huid : record.user_id = uid
          · rw [huid] at hget
            rw [hget] at h
            exact absurd h (by simp)
          · refine ⟨s, ?_, le_refl _⟩
            simp only [update, hc, hget]
            rw [assocGet_set_ne store record.user_id uid _ huid]
            exact h
      | some state =>
          simp only [update, hc, hget]
          split_ifs with h1 h2 h3
          · exact ⟨s, h, le_refl _⟩
          · exact ⟨s, h, le_refl _⟩
          · exact ⟨s, h, le_refl _⟩
          · by_cases huid : record.user_id = uid
            · refine ⟨CloudSaveState.mk c now (calcHash record.data), ?_, ?_⟩
              · rw [huid, assocGet_set_self]
              · rw [huid] at hget
                rw [hget] at h
                have hs : state = s := by injection h
                subst hs
                simpa using le_of_not_lt h2
            · refine ⟨s, ?_, le_refl _⟩
              rw [assocGet_set_ne store record.user_id uid _ huid]
              exact h

end AutoSaveManager

namespace MedalRateEMA

theorem update_last_none (expf : ℚ → ℚ) (st : MedalRateEMA) (t ts : ℚ)
    (h : st.last = none) :
    update expf st t ts =
      ({ st with last := some (ts, t - (st.offset_total : ℚ)) }, none) := by
  simp [update, h]

theorem update_dt_nonpos (expf : ℚ → ℚ) (st : MedalRateEMA) (t ts lt ltot : ℚ)
    (h : st.last = some (lt, ltot)) (hdt : ts - lt ≤ 0) :
    update expf st t ts = (st, some (truncInt st.ema_rate)) := by
  simp [update, h, hdt]

/-- With no successful update available in the whole call sequence, every
call hits the `dt <= 0` branch and returns the truncated initial EMA. -/
theorem runCalls_out_of_succ_zero (expf : ℚ → ℚ) :
    ∀ (calls : List (ℚ × ℚ)) (st : MedalRateEMA),
      st.ema_rate = 0 → succUpdates expf st calls = 0 →
      ∀ o ∈ (runCalls expf st calls).2, o = some 0 := by
  intro calls
  induction calls with
  | nil => intro st _ _ o ho; simp [runCalls] at ho
  | cons c rest ih =>
    intro st hema hsucc o ho
    obtain ⟨t, ts⟩ := c
    cases hl : st.last with
    | none =>
        rw [succUpdates, hl] at hsucc
        simp at hsucc
    | some p =>
        obtain ⟨lt, ltot⟩ := p
        rw [succUpdates, hl] at hsucc
        by_cases hdt : ts - lt ≤ 0
        · simp only [hdt, if_true] at hsucc
          rw [runCalls, update_dt_nonpos expf st t ts lt ltot hl hdt] at ho
          simp at ho
          rcases ho with ho | ho
          · rw [ho, hema, truncInt_zero]
          · have hs2 : succUpdates expf st rest = 0 := by
              rw [update_dt_nonpos expf st t ts lt ltot hl hdt] at hsucc
              simpa using hsucc
            exact ih st hema hs2 o ho
        · simp only [hdt, if_false] at hsucc
          omega

end MedalRateEMA

/-- The trace property is preserved by prefixing one checkpointed
iteration. -/
theorem processedAfterCheckpoint_step (fname line : String) (pos : ℕ)
    (t : List WatchAction) (h : ProcessedAfterCheckpoint fname t) :
    ProcessedAfterCheckpoint fname
      (WatchAction.offsetSet fname pos ::
        WatchAction.lineDispatched line pos (some pos) :: t) := by
  intro pre l0 p0 o0 suf heq
  cases pre with
  | nil => simp at heq
  | cons a pre1 =>
      rw [List.cons_append] at heq
      injection heq with ha heq2
      cases pre1 with
      | nil =>
          rw [List.nil_append] at heq2
          injection heq2 with hb heq3
          injection hb with hl hp ho
          subst hp
          refine ⟨ho.symm, ?_⟩
          rw [ha]
          exact List.mem_singleton.mpr rfl
      | cons b pre2 =>
          rw [List.cons_append] at heq2
          injection heq2 with hb heq3
          obtain ⟨ho, hmem⟩ := h pre2 l0 p0 o0 suf heq3
          exact ⟨ho, by simp [hmem]⟩

namespace MppLogParser

/-- The outer handler chain catches every modelled exception and yields
`None` (the final clause catches `Exception`, the base class of every
exception the body can raise). -/
theorem applyHandlers_eq (e : PyExc) : applyHandlers e = some none := by
  unfold applyHandlers
  split_ifs <;> rfl

/-- The save-data case of `parse_line` never lets an exception escape. -/
theorem savedataReturn_ok (O : ParserOracle) (st1 : ParserSt) (now : ℚ)
    (line : String) :
    ∃ result, (savedataReturn O st1 now line).2 = Except.ok result := by
  cases hres : savedataBranch O st1 now line with
  | ok r => exact ⟨r.1, by simp [savedataReturn, hres]⟩
  | error e => exact ⟨none, by simp [savedataReturn, hres, applyHandlers_eq e]⟩

end MppLogParser

end Dekapu

namespace Dekapu

/-! ## Claim theorems -/

/-- C1.  Rate Estimator update algorithm: with the reference decay constant
20, `MedalRateEMA.update` computes exactly the algorithm the specification
states — adjusted total, first-call store returning nothing, `dt <= 0`
guard returning the current EMA unchanged, otherwise the EMA update with
`alpha = 1 - exp(-dt/20)` followed by storing the new sample and returning
the EMA truncated toward zero. -/
theorem C1_ema_update_refines_spec (expf : ℚ → ℚ) (st : MedalRateEMA)
    (total ts : ℚ) (h : st.decay_const = 20) :
    MedalRateEMA.update expf st total ts =
      MedalRateEMA.updateSpec expf st total ts := by
  obtain ⟨dc, last, ema, off⟩ := st
  simp only at h
  subst h
  rfl

/-- Witness for C1 at a concrete state and input. -/
theorem C1_witness :
    (MedalRateEMA.init 20).decay_const = 20 ∧
      MedalRateEMA.update (fun _ => 0) (MedalRateEMA.init 20) 10 0 =
        MedalRateEMA.updateSpec (fun _ => 0) (MedalRateEMA.init 20) 10 0 :=
  ⟨rfl, C1_ema_update_refines_spec (fun _ => 0) (MedalRateEMA.init 20) 10 0 rfl⟩

/-- C8, counterexample.  The call sequence `[(10,0), (10,0)]` from a fresh
estimator contains only one successful update (the first store; the second
call has `dt = 0`), yet the second call returns the numeric value `some 0`,
not `none` — the claim that every call returns null before two successful
updates is false on the code. -/
theorem C8_nonnull_before_two_updates_counterexample :
    MedalRateEMA.succUpdates (fun _ => 1) (MedalRateEMA.init 20)
        [(10, 0), (10, 0)] = 1 ∧
      (MedalRateEMA.runCalls (fun _ => 1) (MedalRateEMA.init 20)
        [(10, 0), (10, 0)]).2 = [none, some 0] := by
  constructor
  · rw [MedalRateEMA.succUpdates, MedalRateEMA.update]
    norm_num [MedalRateEMA.init, MedalRateEMA.succUpdates]
  · rw [MedalRateEMA.runCalls, MedalRateEMA.update]
    norm_num [MedalRateEMA.init, MedalRateEMA.runCalls, MedalRateEMA.update,
      truncInt]

/-- C8, amended.  The estimator's returned rate can be non-null before two
successful strictly-increasing updates (a duplicate or backward timestamp
already returns the current EMA as an integer); what holds is: with fewer
than two successful updates since construction, every returned value is
either `none` (the first call) or the truncated initial EMA `some 0` — a
nonzero rate indeed requires at least two successful updates with strictly
increasing timestamps. -/
theorem C8_amended_rate_validity (expf : ℚ → ℚ) (d : ℚ)
    (calls : List (ℚ × ℚ))
    (h : MedalRateEMA.succUpdates expf (MedalRateEMA.init d) calls < 2) :
    ∀ o ∈ (MedalRateEMA.runCalls expf (MedalRateEMA.init d) calls).2,
      o = none ∨ o = some 0 := by
  intro o ho
  cases calls with
  | nil => simp [MedalRateEMA.runCalls] at ho
  | cons c rest =>
    obtain ⟨t, ts⟩ := c
    have hl : (MedalRateEMA.init d).last = none := rfl
    have hupd := MedalRateEMA.update_last_none expf (MedalRateEMA.init d) t ts hl
    have hsucc1 : MedalRateEMA.succUpdates expf
        (MedalRateEMA.update expf (MedalRateEMA.init d) t ts).1 rest = 0 := by
      rw [MedalRateEMA.succUpdates, hl] at h
      simp only [] at h
      omega
    simp only [MedalRateEMA.runCalls, List.mem_cons] at ho
    rcases ho with ho | ho
    · left
      rw [ho, hupd]
    · right
      refine MedalRateEMA.runCalls_out_of_succ_zero expf rest _ ?_ hsucc1 o ho
      rw [hupd]
      simp [MedalRateEMA.init]

/-- C3.  Rollback guard invariant: across any sequence of
`AutoSaveManager.update` calls the stored `credit_all` of every user is
non-decreasing, and a call whose incoming `credit_all` is smaller than the
stored value for that user leaves the store untouched, dispatches no remote
call and returns `None`. -/
theorem C3_rollback_guard_invariant :
    (∀ (calcHash : MmpSaveData → String) (itv : ℚ) (store : CloudStore)
        (calls : List (MmpSaveRecord × ℚ × Bool)) (uid : String)
        (s : CloudSaveState),
      assocGet store uid = some s →
      ∃ s2, assocGet (AutoSaveManager.runUpdates calcHash itv store calls) uid
          = some s2 ∧ s.credit_all ≤ s2.credit_all) ∧
    (∀ (calcHash : MmpSaveData → String) (itv : ℚ) (store : CloudStore)
        (record : MmpSaveRecord) (now : ℚ) (irl : Bool)
        (s : CloudSaveState) (c : ℤ),
      assocGet store record.user_id = some s →
      record.data.credit_all = some c →
      c < s.credit_all →
      AutoSaveManager.update calcHash itv store record now irl =
        { store := store, dispatched := false, ret := none }) := by
  constructor
  · intro calcHash itv store calls
    induction calls generalizing store with
    | nil =>
        intro uid s h
        exact ⟨s, h, le_refl _⟩
    | cons call rest ih =>
        intro uid s h
        obtain ⟨record, now, irl⟩ := call
        obtain ⟨s1, h1, le1⟩ := AutoSaveManager.update_mono_step calcHash itv
          store record now irl uid s h
        obtain ⟨s2, h2, le2⟩ := ih _ uid s1 h1
        exact ⟨s2, h2, le_trans le1 le2⟩
  · intro calcHash itv store record now irl s c hget hc hlt
    simp only [AutoSaveManager.update, hc, hget]
    by_cases hrl : irl = false ∧ now - s.last_attempt_at < itv
    · simp [hrl]
    · simp [hrl, hlt]

/-- Witness for C3 at a concrete store, call list and rollback input. -/
theorem C3_witness :
    (assocGet [("u", CloudSaveState.mk 100 0 "h")] "u" =
        some (CloudSaveState.mk 100 0 "h") ∧
      ∃ s2, assocGet (AutoSaveManager.runUpdates (fun _ => "h") 1800
          [("u", CloudSaveState.mk 100 0 "h")] []) "u" = some s2 ∧
        (CloudSaveState.mk 100 0 "h").credit_all ≤ s2.credit_all) ∧
    ((MmpSaveRecord.mk (MmpSaveData.mk (some 90) 0 none []) "u" "" "url").data.credit_all
        = some 90 ∧
      (90 : ℤ) < (CloudSaveState.mk 100 0 "h").credit_all ∧
      AutoSaveManager.update (fun _ => "h") 1800
          [("u", CloudSaveState.mk 100 0 "h")]
          (MmpSaveRecord.mk (MmpSaveData.mk (some 90) 0 none []) "u" "" "url")
          3600 false =
        { store := [("u", CloudSaveState.mk 100 0 "h")], dispatched := false,
          ret := none }) := by
  have hget : assocGet [("u", CloudSaveState.mk 100 0 "h")] "u" =
      some (CloudSaveState.mk 100 0 "h") := by
    simp [assocGet]
  refine ⟨⟨hget, C3_rollback_guard_invariant.1 (fun _ => "h") 1800 _ [] "u" _ hget⟩,
    rfl, by norm_num, C3_rollback_guard_invariant.2 (fun _ => "h") 1800 _ _ 3600
      false _ 90 hget rfl (by norm_num)⟩

/-- C4.  Identical-payload dedup: starting from a store holding no state for
the user, two consecutive `update` calls with the same record,
`ignore_rate_limit = false` and more than the rate-limit interval between
them dispatch exactly one remote call — the first call dispatches, the
second is skipped on the equal content hash and leaves the stored state
unchanged. -/
theorem C4_identical_payload_dedup (calcHash : MmpSaveData → String)
    (itv : ℚ) (store : CloudStore) (record : MmpSaveRecord)
    (now1 now2 : ℚ) (c : ℤ)
    (hfresh : assocGet store record.user_id = none)
    (hc : record.data.credit_all = some c)
    (_hgap : itv < now2 - now1) :
    (AutoSaveManager.update calcHash itv store record now1 false).dispatched
        = true ∧
      (AutoSaveManager.update calcHash itv
          (AutoSaveManager.update calcHash itv store record now1 false).store
          record now2 false).dispatched = false ∧
      (AutoSaveManager.update calcHash itv
          (AutoSaveManager.update calcHash itv store record now1 false).store
          record now2 false).store =
        (AutoSaveManager.update calcHash itv store record now1 false).store := by
  have h1 : AutoSaveManager.update calcHash itv store record now1 false =
      { store := assocSet store record.user_id
          (CloudSaveState.mk c now1 (calcHash record.data))
        dispatched := true, ret := none } := by
    simp [AutoSaveManager.update, hc, hfresh, CloudSaveState.mk]
  have h2 : AutoSaveManager.update calcHash itv
      (assocSet store record.user_id
        (CloudSaveState.mk c now1 (calcHash record.data)))
      record now2 false =
      { store := assocSet store record.user_id
          (CloudSaveState.mk c now1 (calcHash record.data))
        dispatched := false, ret := none } := by
    simp only [AutoSaveManager.update, hc, assocGet_set_self]
    split_ifs <;> rfl
  refine ⟨by rw [h1], by rw [h1, h2], by rw [h1, h2]⟩

/-- Witness for C4 at a concrete record and time gap. -/
theorem C4_witness :
    (assocGet ([] : CloudStore)
        (MmpSaveRecord.mk (MmpSaveData.mk (some 5) 0 none []) "u" "" "url").user_id
        = none ∧
      (MmpSaveRecord.mk (MmpSaveData.mk (some 5) 0 none []) "u" "" "url").data.credit_all
        = some 5 ∧
      (1800 : ℚ) < 3600 - 0) ∧
    ((AutoSaveManager.update (fun _ => "h") 1800 []
        (MmpSaveRecord.mk (MmpSaveData.mk (some 5) 0 none []) "u" "" "url")
        0 false).dispatched = true ∧
      (AutoSaveManager.update (fun _ => "h") 1800
          (AutoSaveManager.update (fun _ => "h") 1800 []
            (MmpSaveRecord.mk (MmpSaveData.mk (some 5) 0 none []) "u" "" "url")
            0 false).store
          (MmpSaveRecord.mk (MmpSaveData.mk (some 5) 0 none []) "u" "" "url")
          3600 false).dispatched = false ∧
      (AutoSaveManager.update (fun _ => "h") 1800
          (AutoSaveManager.update (fun _ => "h") 1800 []
            (MmpSaveRecord.mk (MmpSaveData.mk (some 5) 0 none []) "u" "" "url")
            0 false).store
          (MmpSaveRecord.mk (MmpSaveData.mk (some 5) 0 none []) "u" "" "url")
          3600 false).store =
        (AutoSaveManager.update (fun _ => "h") 1800 []
          (MmpSaveRecord.mk (MmpSaveData.mk (some 5) 0 none []) "u" "" "url")
          0 false).store) :=
  ⟨⟨rfl, rfl, by norm_num⟩,
    C4_identical_payload_dedup (fun _ => "h") 1800 []
      (MmpSaveRecord.mk (MmpSaveData.mk (some 5) 0 none []) "u" "" "url")
      0 3600 5 rfl rfl (by norm_num)⟩

/-- C9.  Forced saves are still guarded: with `ignore_rate_limit = true`
the rollback guard and the identical-hash guard are still evaluated — a
forced save whose `credit_all` is lower than the stored value or whose
content hash equals the stored hash mutates nothing and dispatches
nothing; conversely only the rate limit is bypassed: a forced save passing
both guards dispatches even when the rate-limit interval has not
elapsed. -/
theorem C9_forced_saves_still_guarded :
    (∀ (calcHash : MmpSaveData → String) (itv : ℚ) (store : CloudStore)
        (record : MmpSaveRecord) (now : ℚ) (s : CloudSaveState) (c : ℤ),
      assocGet store record.user_id = some s →
      record.data.credit_all = some c →
      (c < s.credit_all ∨ calcHash record.data = s.data_hash) →
      AutoSaveManager.update calcHash itv store record now true =
        { store := store, dispatched := false, ret := none }) ∧
    (∀ (calcHash : MmpSaveData → String) (itv : ℚ) (store : CloudStore)
        (record : MmpSaveRecord) (now : ℚ) (s : CloudSaveState) (c : ℤ),
      assocGet store record.user_id = some s →
      record.data.credit_all = some c →
      ¬c < s.credit_all → calcHash record.data ≠ s.data_hash →
      now - s.last_attempt_at < itv →
      (AutoSaveManager.update calcHash itv store record now true).dispatched
        = true) := by
  constructor
  · intro calcHash itv store record now s c hget hc hguard
    simp only [AutoSaveManager.update, hc, hget]
    have hnorl : ¬((true = false) ∧ now - s.last_attempt_at < itv) := by
      rintro ⟨habs, -⟩
      exact Bool.noConfusion habs
    rw [if_neg hnorl]
    rcases hguard with hroll | hhash
    · rw [if_pos hroll]
    · by_cases hroll : c < s.credit_all
      · rw [if_pos hroll]
      · rw [if_neg hroll, if_pos hhash]
  · intro calcHash itv store record now s c hget hc hroll hhash _
    simp only [AutoSaveManager.update, hc, hget]
    have hnorl : ¬((true = false) ∧ now - s.last_attempt_at < itv) := by
      rintro ⟨habs, -⟩
      exact Bool.noConfusion habs
    rw [if_neg hnorl, if_neg hroll, if_neg hhash]

/-- Witness for C9: a forced save with an equal hash is skipped, and a
forced save with new data dispatches inside the rate-limit window. -/
theorem C9_witness :
    (assocGet [("u", CloudSaveState.mk 5 0 "h")]
        (MmpSaveRecord.mk (MmpSaveData.mk (some 5) 0 none []) "u" "" "url").user_id
        = some (CloudSaveState.mk 5 0 "h") ∧
      AutoSaveManager.update (fun _ => "h") 1800
          [("u", CloudSaveState.mk 5 0 "h")]
          (MmpSaveRecord.mk (MmpSaveData.mk (some 5) 0 none []) "u" "" "url")
          1 true =
        { store := [("u", CloudSaveState.mk 5 0 "h")], dispatched := false,
          ret := none }) ∧
    ((1 : ℚ) - (CloudSaveState.mk 5 0 "h").last_attempt_at < 1800 ∧
      (AutoSaveManager.update (fun _ => "g") 1800
          [("u", CloudSaveState.mk 5 0 "h")]
          (MmpSaveRecord.mk (MmpSaveData.mk (some 5) 0 none []) "u" "" "url")
          1 true).dispatched = true) := by
  have hget : assocGet [("u", CloudSaveState.mk 5 0 "h")] "u" =
      some (CloudSaveState.mk 5 0 "h") := by
    simp [assocGet]
  have hwin : (1 : ℚ) - (CloudSaveState.mk 5 0 "h").last_attempt_at < 1800 := by
    simp only [CloudSaveState.mk]
    norm_num
  refine ⟨⟨hget, C9_forced_saves_still_guarded.1 (fun _ => "h") 1800 _ _ 1 _ 5
      hget rfl (Or.inr rfl)⟩, hwin,
    C9_forced_saves_still_guarded.2 (fun _ => "g") 1800 _ _ 1 _ 5 hget rfl
      (by norm_num [CloudSaveState.mk]) (by simp [CloudSaveState.mk]) hwin⟩

/-- C10.  `AutoSaveManager.update` returns `None` on every path, so the
watcher's truthiness checks on its result are always false:
`record_is_dirty` is set after every save-data event handled on the normal
rate-limited path (and `has_unsaved_record` then holds), and no save
outcome ever resets it on the leave-resume or app-quit paths. -/
theorem C10_update_returns_none_and_dirty (expf : ℚ → ℚ)
    (calcHash : MmpSaveData → String) (itv : ℚ) :
    (∀ (store : CloudStore) (record : MmpSaveRecord) (now : ℚ) (irl : Bool),
      (AutoSaveManager.update calcHash itv store record now irl).ret = none) ∧
    (∀ (st : WatcherSt) (cloud : CloudStore) (now : ℚ)
        (record : MmpSaveRecord) (c : ℤ),
      st.enable_autosave = true → st.wait_leave_resume_url = false →
      record.data.credit_all = some c →
      ∃ st2 cloud2 acts,
        handleEvent expf calcHash itv st cloud now
            (WEvent.savedataUpdate (some record)) =
          Except.ok (st2, cloud2, acts) ∧
        st2.record_is_dirty = true ∧ st2.last_record = some record ∧
        hasUnsavedRecord st2 = true) ∧
    (∀ (st : WatcherSt) (cloud : CloudStore) (now : ℚ)
        (record : MmpSaveRecord) (c : ℤ),
      st.enable_autosave = true → st.wait_leave_resume_url = true →
      record.data.credit_all = some c →
      ∃ st2 cloud2 acts,
        handleEvent expf calcHash itv st cloud now
            (WEvent.savedataUpdate (some record)) =
          Except.ok (st2, cloud2, acts) ∧
        st2.record_is_dirty = st.record_is_dirty) ∧
    (∀ (st : WatcherSt) (cloud : CloudStore) (now : ℚ),
      ∃ st2 cloud2 acts,
        handleEvent expf calcHash itv st cloud now WEvent.appQuit =
          Except.ok (st2, cloud2, acts) ∧
        st2.record_is_dirty = st.record_is_dirty) := by
  refine ⟨AutoSaveManager.update_ret_none calcHash itv, ?_, ?_, ?_⟩
  · intro st cloud now record c hen hwait hc
    simp only [handleEvent, hc, hen, hwait, AutoSaveManager.update_ret_none,
      pyTruthy, Option.isSome_none, Bool.false_eq_true, if_false,
      Bool.true_eq_false, reduceIte]
    exact ⟨_, _, _, rfl, rfl, rfl, by simp [hasUnsavedRecord]⟩
  · intro st cloud now record c hen hwait hc
    simp only [handleEvent, hc, hen, hwait, AutoSaveManager.update_ret_none,
      pyTruthy, Option.isSome_none, Bool.false_eq_true, if_false,
      Bool.true_eq_false, reduceIte]
    exact ⟨_, _, _, rfl, rfl⟩
  · intro st cloud now
    by_cases hguard : st.enable_autosave && hasUnsavedRecord st
    · cases hlr : st.last_record with
      | none =>
          rw [hasUnsavedRecord, hlr] at hguard
          simp at hguard
      | some record =>
          simp only [handleEvent, hguard, hlr, if_true,
            AutoSaveManager.update_ret_none, pyTruthy, Option.isSome_none,
            Bool.false_eq_true, if_false, reduceIte]
          exact ⟨_, _, _, rfl, rfl⟩
    · simp only [Bool.not_eq_true] at hguard
      simp [handleEvent, hguard]

/-- Witness for C10 at a concrete watcher state and record. -/
theorem C10_witness :
    ((WatcherSt.mk (MedalRateEMA.init 20) none false false true).enable_autosave
        = true ∧
      (WatcherSt.mk (MedalRateEMA.init 20) none false false
        true).wait_leave_resume_url = false ∧
      (MmpSaveRecord.mk (MmpSaveData.mk (some 5) 0 none []) "u" "" "url").data.credit_all
        = some 5) ∧
    (∃ st2 cloud2 acts,
      handleEvent (fun _ => 1) (fun _ => "h") 1800
          (WatcherSt.mk (MedalRateEMA.init 20) none false false true) [] 0
          (WEvent.savedataUpdate
            (some (MmpSaveRecord.mk (MmpSaveData.mk (some 5) 0 none []) "u" "" "url"))) =
        Except.ok (st2, cloud2, acts) ∧
      st2.record_is_dirty = true ∧
      st2.last_record =
        some (MmpSaveRecord.mk (MmpSaveData.mk (some 5) 0 none []) "u" "" "url") ∧
      hasUnsavedRecord st2 = true) :=
  ⟨⟨rfl, rfl, rfl⟩,
    (C10_update_returns_none_and_dirty (fun _ => 1) (fun _ => "h") 1800).2.1
      (WatcherSt.mk (MedalRateEMA.init 20) none false false true) [] 0
      (MmpSaveRecord.mk (MmpSaveData.mk (some 5) 0 none []) "u" "" "url") 5
      rfl rfl rfl⟩

/-- Witness for C8 (amended) at a concrete call sequence. -/
theorem C8_amended_witness :
    MedalRateEMA.succUpdates (fun _ => 1) (MedalRateEMA.init 20)
        [(10, 0)] < 2 ∧
      ∀ o ∈ (MedalRateEMA.runCalls (fun _ => 1) (MedalRateEMA.init 20)
        [(10, 0)]).2, o = none ∨ o = some 0 := by
  have h : MedalRateEMA.succUpdates (fun _ => 1) (MedalRateEMA.init 20)
      [(10, 0)] < 2 := by
    rw [MedalRateEMA.succUpdates]
    norm_num [MedalRateEMA.init, MedalRateEMA.succUpdates]
  exact ⟨h, C8_amended_rate_validity (fun _ => 1) 20 [(10, 0)] h⟩

/-- C2.  Checkpoint-before-dispatch: in every trace of the watcher's read
loop, each processed non-empty line is preceded by the offset-store write
of that line's end position, and at the moment the line is dispatched the
store already holds exactly that position. -/
theorem C2_checkpoint_before_dispatch (fname : String)
    (offsets : List (String × ℕ)) (inputs : List (String × ℕ)) :
    ProcessedAfterCheckpoint fname (runLoop fname offsets inputs).2 := by
  induction inputs generalizing offsets with
  | nil =>
      intro pre l0 p0 o0 suf heq
      rw [runLoop] at heq
      exact absurd heq (by simp)
  | cons inp rest ih =>
      obtain ⟨line, pos⟩ := inp
      by_cases hline : line = ""
      · have : (runLoop fname offsets ((line, pos) :: rest)).2 =
            (runLoop fname offsets rest).2 := by
          simp [runLoop, readIter, hline]
        rw [this]
        exact ih offsets
      · have : (runLoop fname offsets ((line, pos) :: rest)).2 =
            WatchAction.offsetSet fname pos ::
              WatchAction.lineDispatched line pos (some pos) ::
                (runLoop fname (assocSet offsets fname pos) rest).2 := by
          simp [runLoop, readIter, hline, assocGet_set_self]
        rw [this]
        exact processedAfterCheckpoint_step fname line pos _
          (ih (assocSet offsets fname pos))

/-- Witness for C2: the trace of a single non-empty read decomposes with
the checkpoint in front of the dispatch. -/
theorem C2_witness :
    (some 42 : Option ℕ) = some 42 ∧
      WatchAction.offsetSet "log.txt" 42 ∈ [WatchAction.offsetSet "log.txt" 42] :=
  C2_checkpoint_before_dispatch "log.txt" [] [("line", 42)]
    [WatchAction.offsetSet "log.txt" 42] "line" 42 (some 42) [] (by decide)

/-- C5.  Classifier totality: for every oracle behaviour, parser state and
input line, `parse_line` returns a value and never lets an exception
escape; in particular a save-data line whose `data` query parameter fails
JSON decoding produces no event (`Ok None`) instead of an error. -/
theorem C5_classifier_totality :
    (∀ (O : ParserOracle) (st : ParserSt) (now : ℚ) (line : String),
      ∃ result, (MppLogParser.parse_line O st now line).2 =
        Except.ok result) ∧
    (∀ (O : ParserOracle) (st : ParserSt) (now : ℚ) (line : String),
      containsB line MppLogParser.TIMESTAMP_MARK = false →
      containsB line MppLogParser.CLOUD_LOAD_MSG = false →
      containsB line MppLogParser.SESSION_RESET_MSG = false →
      containsB line MppLogParser.WORLD_JOIN_MSG = false →
      containsB line MppLogParser.SAVEDATA_URL_MARK = true →
      O.jsonLoads (O.unquote ((O.getQueryParam line "data").getD "\x7b\x7d")) =
        Except.error PyExc.jsonDecodeError →
      (MppLogParser.parse_line O st now line).2 = Except.ok none) := by
  constructor
  · intro O st now line
    unfold MppLogParser.parse_line
    by_cases h1 : containsB line MppLogParser.TIMESTAMP_MARK
    · exact ⟨none, by simp [h1]⟩
    by_cases h2 : containsB line MppLogParser.CLOUD_LOAD_MSG
    · exact ⟨none, by simp [h1, h2]⟩
    by_cases h3 : containsB line MppLogParser.SESSION_RESET_MSG
    · exact ⟨none, by simp [h1, h2, h3]⟩
    by_cases h4 : containsB line MppLogParser.WORLD_JOIN_MSG
    · exact ⟨none, by simp [h1, h2, h3, h4]⟩
    by_cases h5 : containsB line MppLogParser.SAVEDATA_URL_MARK
    · obtain ⟨result, hres⟩ := MppLogParser.savedataReturn_ok O
        (if containsB line MppLogParser.JP_STOCK_OVER_MSG then
          MppLogParser.parseJpStockoverLine O st line
        else st) now line
      exact ⟨result, by simp only [h1, h2, h3, h4, h5, Bool.false_eq_true,
        if_false, if_true]; exact hres⟩
    · exact ⟨none, by simp [h1, h2, h3, h4, h5]⟩
  · intro O st now line h1 h2 h3 h4 h5 hjson
    have hbranch : ∀ st1, MppLogParser.savedataBranch O st1 now line =
        Except.ok (none, st1) := by
      intro st1
      unfold MppLogParser.savedataBranch
      simp only [hjson]
      rfl
    unfold MppLogParser.parse_line
    simp only [h1, h2, h3, h4, h5, Bool.false_eq_true, if_false, if_true,
      MppLogParser.savedataReturn, hbranch]

/-- Witness for C5 at a concrete line and a concrete failing JSON
oracle. -/
theorem C5_witness :
    (containsB "https://push.trap.games/api/v3/data?data=bad"
        MppLogParser.TIMESTAMP_MARK = false ∧
      containsB "https://push.trap.games/api/v3/data?data=bad"
        MppLogParser.CLOUD_LOAD_MSG = false ∧
      containsB "https://push.trap.games/api/v3/data?data=bad"
        MppLogParser.SESSION_RESET_MSG = false ∧
      containsB "https://push.trap.games/api/v3/data?data=bad"
        MppLogParser.WORLD_JOIN_MSG = false ∧
      containsB "https://push.trap.games/api/v3/data?data=bad"
        MppLogParser.SAVEDATA_URL_MARK = true) ∧
    (MppLogParser.parse_line
        (ParserOracle.mk (fun _ => none) (fun _ => .error .valueError)
          (fun _ => none) (fun _ => .error .valueError) (fun _ _ => none)
          (fun s => s) (fun _ => .error .jsonDecodeError) (fun _ => 1))
        (ParserSt.mk (MedalRateEMA.init 20) none 0) 0
        "https://push.trap.games/api/v3/data?data=bad").2 = Except.ok none := by
  refine ⟨⟨by decide, by decide, by decide, by decide, by decide⟩, ?_⟩
  exact C5_classifier_totality.2
    (ParserOracle.mk (fun _ => none) (fun _ => .error .valueError)
      (fun _ => none) (fun _ => .error .valueError) (fun _ _ => none)
      (fun s => s) (fun _ => .error .jsonDecodeError) (fun _ => 1))
    (ParserSt.mk (MedalRateEMA.init 20) none 0) 0
    "https://push.trap.games/api/v3/data?data=bad"
    (by decide) (by decide) (by decide) (by decide) (by decide) rfl

/-- C6, counterexample.  `CloudSaveStateStore._save` writes the JSON
document directly to the target path — its persistence step does not
follow the temporary-file-then-atomic-rename protocol the claim asserts
for both stores. -/
theorem C6_cloudsave_not_atomic_counterexample :
    ¬ atomicReplaceProtocol cloudStatePath
        (CloudSaveStateStore.saveActions cloudStatePath "payload") := by
  rintro ⟨tmp, doc, -, heq⟩
  simp [CloudSaveStateStore.saveActions] at heq

/-- C6, amended.  Only the Offset Checkpoint Store persists through a
temporary file followed by an atomic rename
(`self._path.with_suffix(".tmp")`, then `tmp.replace(self._path)`); the
Remote-Save State Store writes its JSON document directly to the target
path in place. -/
theorem C6_amended_atomic_persistence :
    (∀ doc, atomicReplaceProtocol offsetStorePath
        (FileOffsetStore.saveActions offsetStorePath doc)) ∧
    (∀ doc, CloudSaveStateStore.saveActions cloudStatePath doc =
        [FsWrite.writeFile cloudStatePath doc]) := by
  constructor
  · intro doc
    exact ⟨withSuffix offsetStorePath ".tmp", doc, by decide, rfl⟩
  · intro doc
    rfl

/-- C7, counterexample.  A defined rate of zero is dropped by
`_push_influxdb` (`if credit_all_delta_1m:` is Python truthiness): at a
concrete record the point for `delta = some 0` carries no
`credit_all_delta_1m` field even though the rate is defined. -/
theorem C7_zero_delta_omitted_counterexample :
    (some 0 : Option ℤ) ≠ none ∧
      ¬ ("credit_all_delta_1m" ∈ (pushInfluxFields
          (MmpSaveRecord.mk (MmpSaveData.mk (some 5) 0 none []) "u" "" "url")
          (some 0)).map Prod.fst) := by
  constructor
  · decide
  · decide

/-- C7, amended.  The watcher's metrics point carries
`credit_all_delta_1m` exactly when the Rate Estimator's latest returned
rate is defined *and nonzero*; a defined rate of zero is omitted along
with the undefined case (Python truthiness in `_push_influxdb`). -/
theorem C7_amended_delta_field (record : MmpSaveRecord) (delta : Option ℤ)
    (hnodup : "credit_all_delta_1m" ∉
      (model_dump_for_influx record.data).map Prod.fst) :
    ("credit_all_delta_1m" ∈ (pushInfluxFields record delta).map Prod.fst ↔
      ∃ d, delta = some d ∧ d ≠ 0) := by
  unfold pushInfluxFields
  constructor
  · intro hmem
    simp only [List.map_cons, List.map_append, List.mem_cons,
      List.mem_append] at hmem
    rcases hmem with h | h | h
    · exact absurd h (by decide)
    · cases delta with
      | none => simp [pyTruthyInt] at h
      | some d =>
          by_cases hd : d = 0
          · simp [pyTruthyInt, hd] at h
          · exact ⟨d, rfl, hd⟩
    · exact absurd h hnodup
  · rintro ⟨d, rfl, hd⟩
    simp [pyTruthyInt, hd]

/-- Witness for C7 (amended) at a concrete record and a nonzero rate. -/
theorem C7_amended_witness :
    ("credit_all_delta_1m" ∉
        (model_dump_for_influx (MmpSaveData.mk (some 5) 0 none [])).map
          Prod.fst) ∧
      ("credit_all_delta_1m" ∈ (pushInfluxFields
          (MmpSaveRecord.mk (MmpSaveData.mk (some 5) 0 none []) "u" "" "url")
          (some 3)).map Prod.fst ↔
        ∃ d, (some 3 : Option ℤ) = some d ∧ d ≠ 0) :=
  ⟨by decide, C7_amended_delta_field
    (MmpSaveRecord.mk (MmpSaveData.mk (some 5) 0 none []) "u" "" "url")
    (some 3) (by decide)⟩

end Dekapu
